import Mathlib

/-!
Shallow embedding of `src/video_claim_analysis.py`.

The network-facing stages (`extract_claims`, `verify_claims`, the HTTP
request inside `fetch_source_links`) are modelled by passing their results
as explicit inputs; the pure text processing of every function is embedded
directly.  Strings in Lean 4.14 are lists of characters, so Python string
operations are translated to explicit list operations:

* `s.split(sep)` (single-character separator, empty pieces kept) → `pySplit`
* `s.split()` (whitespace split, empty pieces dropped)           → `pySplitWs`
* `s.strip()`                                                    → `pyStrip`
* `needle in hay` (substring containment)                        → `strContains`
* `s.lower()`                                                    → `strLower`
* `re.search(r'(\d{2}:\d{2}:\d{2})', line)` (leftmost match)     → `findTimestamp`

`\d` is modelled as an ASCII decimal digit (`Char.isDigit`) and `lower`
as ASCII lowercasing (`Char.toLower`).
-/

/-- Split a character list at every separator character satisfying `p`,
keeping empty pieces, as Python `str.split(sep)` does. -/
def pySplitList (p : Char → Bool) : List Char → List (List Char)
  | [] => [[]]
  | c :: cs =>
    match pySplitList p cs with
    | [] => [[]]
    | w :: ws => if p c then [] :: w :: ws else (c :: w) :: ws

/-- Python `s.split(sep)` for a one-character separator `sep`. -/
def pySplit (sep : Char) (s : String) : List String :=
  (pySplitList (fun c => c == sep) s.toList).map List.asString

/-- Python `s.split()`: split on whitespace runs, dropping empty pieces. -/
def pySplitWs (s : String) : List String :=
  ((pySplitList (fun c => c.isWhitespace) s.toList).map List.asString).filter
    (fun w => !(w == ""))

/-- Python `s.lower()` (ASCII case folding). -/
def strLower (s : String) : String := (s.toList.map Char.toLower).asString

/-- Does `hay` start with `needle`? (first argument is the needle). -/
def startsWithCh : List Char → List Char → Bool
  | [], _ => true
  | _ :: _, [] => false
  | n :: ns, h :: hs => n == h && startsWithCh ns hs

/-- Does `needle` occur as a contiguous run inside `hay`? -/
def occursIn (needle : List Char) : List Char → Bool
  | [] => startsWithCh needle []
  | h :: t => startsWithCh needle (h :: t) || occursIn needle t

/-- Python `needle in hay` for strings: contiguous substring containment. -/
def strContains (hay needle : String) : Bool := occursIn needle.toList hay.toList

/-- Python `s.strip()`: drop leading and trailing whitespace. -/
def pyStrip (s : String) : String :=
  (((s.toList.dropWhile Char.isWhitespace).reverse.dropWhile
      Char.isWhitespace).reverse).asString

/-- Python `claim.split(':')[0]` (line 32 and line 66 of the source):
the part of the string before the first colon, or the whole string. -/
def takeBeforeColon (s : String) : String := (pySplit ':' s).headD ""

/-- Does the regex `\d{2}:\d{2}:\d{2}` match at the head of this character
list? -/
def isTsAt : List Char → Bool
  | d1 :: d2 :: c1 :: d3 :: d4 :: c2 :: d5 :: d6 :: _ =>
      d1.isDigit && d2.isDigit && c1 == ':' && d3.isDigit && d4.isDigit &&
        c2 == ':' && d5.isDigit && d6.isDigit
  | _ => false

/-- Embeds `re.search(r'(\d{2}:\d{2}:\d{2})', line)` followed by
`match.group(0)`: the leftmost eight-character match of the pattern. -/
def findTimestamp : List Char → Option String
  | [] => none
  | c :: cs =>
      if isTsAt (c :: cs) then some (((c :: cs).take 8).asString)
      else findTimestamp cs

/-- A Python `dict` from topic strings to timestamp lists, as an
insertion-ordered association list. -/
abbrev PyDict := List (String × List String)

/-- Python `d[k] = v`: update the existing entry in place, else append. -/
def dictSet : PyDict → String → List String → PyDict
  | [], k, v => [(k, v)]
  | (k1, v1) :: rest, k, v =>
      if k1 = k then (k, v) :: rest else (k1, v1) :: dictSet rest k v

/-- Python `d[k]` / key lookup: `some` of the stored value, or `none`. -/
def dictGet? : PyDict → String → Option (List String)
  | [], _ => none
  | (k1, v1) :: rest, k => if k1 = k then some v1 else dictGet? rest k

/-- Python `d.get(k, dflt)`. -/
def dictGetD (d : PyDict) (k : String) (dflt : List String) : List String :=
  match dictGet? d k with
  | some v => v
  | none => dflt

/-- The guard on line 35 of the source:
`any(word.lower() in line.lower() for word in keyword.split())`. -/
def wordMatch (keyword line : String) : Bool :=
  (pySplitWs keyword).any (fun word => strContains (strLower line) (strLower word))

/-- What one transcript line contributes to a topic's timestamp list
(lines 35-38 of the source): the first `HH:MM:SS` match when some topic
word occurs case-insensitively in the line, nothing otherwise. -/
def lineContrib (keyword line : String) : Option String :=
  if wordMatch keyword line then findTimestamp line.toList else none

/-- The inner loop of `extract_timestamps` (lines 34-38): the timestamp
list collected for one keyword over all transcript lines. -/
def topicTimestamps (keyword : String) (tlines : List String) : List String :=
  tlines.filterMap (lineContrib keyword)

/-- One iteration of the outer loop of `extract_timestamps`
(lines 31-38): derive the keyword, reset its entry, rescan the transcript. -/
def insertTopic (tlines : List String) (d : PyDict) (claim : String) : PyDict :=
  dictSet d (takeBeforeColon claim) (topicTimestamps (takeBeforeColon claim) tlines)

/-- `extract_timestamps(transcript, claims)` (lines 28-39 of the source). -/
def extract_timestamps (transcript claims : String) : PyDict :=
  (pySplit '\n' claims).foldl (insertTopic (pySplit '\n' transcript)) []

/-- The pure part of `fetch_source_links` (lines 48-53 of the source),
over the list of anchor `href` values the HTML parser extracted in
document order: keep hrefs containing `"http"` and not containing
`"google"`, and return the first three. -/
def fetch_source_links (hrefs : List String) : List String :=
  (hrefs.filter (fun href => strContains href "http" && !(strContains href "google"))).take 3

/-- Python `str(list_of_strings)`: bracketed, comma-separated, each element
in single quotes.  Exact for strings free of quotes, backslashes and control
characters (the only lists rendered by the report are timestamp strings and
the default list). -/
def pyReprStr (s : String) : String := "\x27" ++ s ++ "\x27"

/-- Tail of the rendering of a Python list: `, 'x'` for each later element. -/
def pyReprListAux : List String → String
  | [] => ""
  | s :: rest => ", " ++ pyReprStr s ++ pyReprListAux rest

/-- Python `str` of a list of strings, as interpolated by the f-string on
line 71 of the source. -/
def pyReprList : List String → String
  | [] => "[]"
  | s :: rest => "[" ++ pyReprStr s ++ pyReprListAux rest ++ "]"

/-- Concatenation of a list of strings (the `report += ...` loop). -/
def strJoin : List String → String
  | [] => ""
  | s :: rest => s ++ strJoin rest

/-- The body of the claim loop of `generate_final_report` (lines 64-76 of
the source) for one claim line: the section text it appends to the report.
`verified` is the whole-set verification text and `sources` stands for
`fetch_source_links` applied to a topic (a network call, modelled as an
input).  A claim line failing `if claim.strip():` appends nothing. -/
def claimSection (timestamps : PyDict) (verified : String)
    (sources : String → List String) (claim : String) : String :=
  if pyStrip claim ≠ "" then
    "### " ++ takeBeforeColon claim ++ "\n" ++
      "**Claim:** " ++ claim ++ "\n\n" ++
      "**Timestamps:** " ++
        pyReprList (dictGetD timestamps (takeBeforeColon claim) ["N/A"]) ++ "\n\n" ++
      "**Verification:** " ++ verified ++ "\n\n" ++
      "**Relevant Sources:**\n" ++
      strJoin ((sources (takeBeforeColon claim)).map
        (fun source => "- [" ++ source ++ "](" ++ source ++ ")\n")) ++
      "\n---\n"
  else ""

/-- The pure text assembly of `generate_final_report` (lines 55-78 of the
source).  `claims` stands for the result of `extract_claims(transcript)`
and `verified` for `verify_claims(claims)` (both network calls, modelled
as inputs), `sources` as in `claimSection`. -/
def generate_final_report (transcript claims verified : String)
    (sources : String → List String) : String :=
  "# Video Claim Analysis Report\n\n" ++
    "## Strong Claims and Their Evaluation\n\n" ++
    strJoin ((pySplit '\n' claims).map
      (claimSection (extract_timestamps transcript claims) verified sources))

/-- Specification-side: all suffixes of a character list, longest first
(the candidate match positions of a regex search). -/
def allSuffixes : List Char → List (List Char)
  | [] => [[]]
  | c :: cs => (c :: cs) :: allSuffixes cs

/-- Specification-side: the line contains a substring matching
`two digits, colon, two digits, colon, two digits`. -/
def specHasTimestamp (line : String) : Bool :=
  (allSuffixes line.toList).any isTsAt

/-- Specification-side: the first (leftmost) `HH:MM:SS`-shaped substring
of the line, if any. -/
def specFirstTimestamp (line : String) : Option String :=
  ((allSuffixes line.toList).find? isTsAt).map (fun t => (t.take 8).asString)

/-- Specification-side: the string is exactly eight characters of the
shape two digits, colon, two digits, colon, two digits. -/
def isTimestampString (s : String) : Bool :=
  match s.toList with
  | [d1, d2, c1, d3, d4, c2, d5, d6] =>
      d1.isDigit && d2.isDigit && c1 == ':' && d3.isDigit && d4.isDigit &&
        c2 == ':' && d5.isDigit && d6.isDigit
  | _ => false

lemma asString_toList (s : String) : s.toList.asString = s := rfl

lemma dictGet?_dictSet_self (d : PyDict) (k : String) (v : List String) :
    dictGet? (dictSet d k v) k = some v := by
  induction d with
  | nil => simp [dictSet, dictGet?]
  | cons p rest ih =>
      obtain ⟨k1, v1⟩ := p
      by_cases h : k1 = k
      · simp [dictSet, dictGet?, h]
      · simp [dictSet, dictGet?, h, ih]

lemma dictGet?_dictSet_ne (d : PyDict) (k1 k : String) (v : List String)
    (h : k1 ≠ k) : dictGet? (dictSet d k1 v) k = dictGet? d k := by
  induction d with
  | nil => simp [dictSet, dictGet?, h]
  | cons p rest ih =>
      obtain ⟨k2, v2⟩ := p
      by_cases h2 : k2 = k1
      · subst h2
        simp [dictSet, dictGet?, h]
      · simp [dictSet, dictGet?, h2, ih]

lemma foldl_insertTopic_lookup (tl : List String) (cs : List String) :
    ∀ (d : PyDict) (k : String),
      dictGet? (cs.foldl (insertTopic tl) d) k =
        if k ∈ cs.map takeBeforeColon then some (topicTimestamps k tl)
        else dictGet? d k := by
  induction cs with
  | nil => intro d k; simp
  | cons c rest ih =>
      intro d k
      rw [List.foldl_cons, ih]
      by_cases hk : k ∈ rest.map takeBeforeColon
      · have hmem : k ∈ (c :: rest).map takeBeforeColon := by
          simp only [List.map_cons, List.mem_cons]
          exact Or.inr hk
        rw [if_pos hk, if_pos hmem]
      · by_cases hc : takeBeforeColon c = k
        · have hmem : k ∈ (c :: rest).map takeBeforeColon := by
            simp only [List.map_cons, List.mem_cons]
            exact Or.inl hc.symm
          rw [if_neg hk, insertTopic, hc, dictGet?_dictSet_self, if_pos hmem]
        · have hmem : k ∉ (c :: rest).map takeBeforeColon := by
            simp only [List.map_cons, List.mem_cons]
            rintro (h1 | h2)
            · exact hc h1.symm
            · exact hk h2
          rw [if_neg hk, insertTopic, dictGet?_dictSet_ne _ _ _ _ hc, if_neg hmem]

lemma extract_lookup (t c k : String) :
    dictGet? (extract_timestamps t c) k =
      if k ∈ (pySplit '\n' c).map takeBeforeColon
      then some (topicTimestamps k (pySplit '\n' t)) else none := by
  rw [extract_timestamps, foldl_insertTopic_lookup]
  rfl

lemma findTimestamp_eq_spec (cs : List Char) :
    findTimestamp cs =
      ((allSuffixes cs).find? isTsAt).map (fun t => (t.take 8).asString) := by
  induction cs with
  | nil => rfl
  | cons c rest ih =>
      by_cases h : isTsAt (c :: rest) = true
      · simp [findTimestamp, allSuffixes, List.find?_cons, h]
      · have h2 : isTsAt (c :: rest) = false := by
          cases h3 : isTsAt (c :: rest)
          · rfl
          · exact absurd h3 h
        simp [findTimestamp, allSuffixes, List.find?_cons, h2, ih]

lemma isTsAt_take8 (l : List Char) (h : isTsAt l = true) :
    isTimestampString ((l.take 8).asString) = true := by
  match l, h with
  | a1 :: a2 :: a3 :: a4 :: a5 :: a6 :: a7 :: a8 :: rest, h => exact h
  | [], h => exact Bool.noConfusion (show false = true from h)
  | [a1], h => exact Bool.noConfusion (show false = true from h)
  | [a1, a2], h => exact Bool.noConfusion (show false = true from h)
  | [a1, a2, a3], h => exact Bool.noConfusion (show false = true from h)
  | [a1, a2, a3, a4], h => exact Bool.noConfusion (show false = true from h)
  | [a1, a2, a3, a4, a5], h => exact Bool.noConfusion (show false = true from h)
  | [a1, a2, a3, a4, a5, a6], h => exact Bool.noConfusion (show false = true from h)
  | [a1, a2, a3, a4, a5, a6, a7], h => exact Bool.noConfusion (show false = true from h)

lemma findTimestamp_shape (cs : List Char) (s : String)
    (h : findTimestamp cs = some s) : isTimestampString s = true := by
  induction cs with
  | nil => exact absurd h (by simp [findTimestamp])
  | cons c rest ih =>
      rw [findTimestamp] at h
      by_cases hts : isTsAt (c :: rest) = true
      · rw [if_pos hts] at h
        obtain rfl : ((c :: rest).take 8).asString = s := by
          injection h
        exact isTsAt_take8 _ hts
      · rw [if_neg hts] at h
        exact ih h

lemma topicTimestamps_empty (tl : List String) : topicTimestamps "" tl = [] := by
  induction tl with
  | nil => rfl
  | cons l rest ih =>
      simp only [topicTimestamps] at ih ⊢
      rw [List.filterMap_cons]
      have hl : lineContrib "" l = none := rfl
      rw [hl]
      exact ih

lemma pySplitList_no_sep (p : Char → Bool) (cs : List Char)
    (h : ∀ c ∈ cs, p c = false) : pySplitList p cs = [cs] := by
  induction cs with
  | nil => rfl
  | cons c rest ih =>
      have hc : p c = false := h c (by simp)
      have hr : pySplitList p rest = [rest] :=
        ih (fun x hx => h x (by simp [hx]))
      simp [pySplitList, hr, hc]

lemma str_empty_append (s : String) : "" ++ s = s := by
  obtain ⟨data⟩ := s
  rfl

lemma strJoin_map_filter (f : String → String) (p : String → Bool)
    (l : List String) (h : ∀ x ∈ l, p x = false → f x = "") :
    strJoin (l.map f) = strJoin ((l.filter p).map f) := by
  induction l with
  | nil => rfl
  | cons a rest ih =>
      have hr := ih (fun x hx => h x (List.mem_cons_of_mem _ hx))
      cases hpa : p a with
      | true =>
          rw [List.filter_cons, if_pos (by simp [hpa]), List.map_cons, List.map_cons]
          show f a ++ strJoin (List.map f rest) =
            f a ++ strJoin (List.map f (List.filter p rest))
          rw [hr]
      | false =>
          have hfa : f a = "" := h a (by simp) hpa
          rw [List.filter_cons, if_neg (by simp [hpa]), List.map_cons]
          show f a ++ strJoin (List.map f rest) =
            strJoin (List.map f (List.filter p rest))
          rw [hfa, str_empty_append, hr]

lemma claimSection_blank (ts : PyDict) (v : String) (s : String → List String)
    (claim : String) (h : pyStrip claim = "") :
    claimSection ts v s claim = "" := by
  rw [claimSection, if_neg]
  intro h2
  exact h2 h

lemma find?_eq_none_of_any_false {α : Type} (p : α → Bool) (l : List α)
    (h : l.any p = false) : l.find? p = none := by
  induction l with
  | nil => rfl
  | cons a rest ih =>
      rw [List.any_cons] at h
      cases hpa : p a with
      | true =>
          rw [hpa] at h
          exact absurd h (by simp)
      | false =>
          have hrest : rest.any p = false := by simpa [hpa] using h
          simp only [List.find?_cons, hpa]
          exact ih hrest

lemma filterMap_congr_fn {α β : Type} (f g : α → Option β) (l : List α)
    (h : ∀ a, f a = g a) : l.filterMap f = l.filterMap g := by
  induction l with
  | nil => rfl
  | cons a rest ih => rw [List.filterMap_cons, List.filterMap_cons, h a, ih]

lemma lineContrib_spec (keyword line : String) :
    lineContrib keyword line =
      if (wordMatch keyword line && specHasTimestamp line) = true
      then specFirstTimestamp line else none := by
  rw [lineContrib]
  cases hw : wordMatch keyword line with
  | false => simp
  | true =>
      rw [if_pos rfl, findTimestamp_eq_spec]
      cases hh : specHasTimestamp line with
      | true =>
          rw [if_pos (show (true && true) = true from rfl)]
          rfl
      | false =>
          rw [if_neg (by simp)]
          have hfn : (allSuffixes line.toList).find? isTsAt = none :=
            find?_eq_none_of_any_false _ _ hh
          rw [hfn]
          rfl

/-- Claim C1: for every transcript line and every Topic (keyword), the line
contributes a timestamp to that Topic's list if and only if it contains a
substring of the shape two digits, colon, two digits, colon, two digits AND
at least one whitespace-delimited word of the Topic occurs as a
case-insensitive substring of the line; each such line contributes exactly
one timestamp, the leftmost match on the line. -/
theorem extract_timestamps_line_contribution (keyword : String) (tlines : List String) :
    topicTimestamps keyword tlines =
      tlines.filterMap (fun line =>
        if (wordMatch keyword line && specHasTimestamp line) = true
        then specFirstTimestamp line else none) := by
  rw [topicTimestamps]
  exact filterMap_congr_fn _ _ _ (fun line => lineContrib_spec keyword line)

/-- Claim C2: the source-link list has at most 3 entries, each entry
contains "http" and none contains "google", the result is the 3-element
prefix of the qualifying hrefs in document order, and the four-anchor
scenario returns exactly the cdc and who links. -/
theorem fetch_source_links_spec (hrefs : List String) :
    (fetch_source_links hrefs).length ≤ 3 ∧
    (∀ l ∈ fetch_source_links hrefs,
        strContains l "http" = true ∧ strContains l "google" = false) ∧
    fetch_source_links hrefs =
      (hrefs.filter
        (fun href => strContains href "http" && !(strContains href "google"))).take 3 ∧
    fetch_source_links
        ["https://www.google.com/x", "https://cdc.gov/y", "https://who.int/z", "/relative"] =
      ["https://cdc.gov/y", "https://who.int/z"] := by
  refine ⟨List.length_take_le 3 _, ?_, rfl, by decide⟩
  intro l hl
  have hl2 := List.mem_of_mem_take hl
  have hq := (List.mem_filter.1 hl2).2
  simp only [Bool.and_eq_true, Bool.not_eq_true'] at hq
  exact hq

/-- Claim C2, witness: the conjuncts instantiated at the four-anchor
scenario, with the membership hypothesis discharged at the cdc link. -/
theorem fetch_source_links_spec_witness :
    strContains "https://cdc.gov/y" "http" = true ∧
    strContains "https://cdc.gov/y" "google" = false :=
  (fetch_source_links_spec
      ["https://www.google.com/x", "https://cdc.gov/y", "https://who.int/z", "/relative"]).2.1
    "https://cdc.gov/y" (by decide)

/-- Claim C6: on the concrete two-line transcript and the single claim
line "Vaccines: cause autism claim", the index maps "Vaccines" to exactly
["00:01:15"]: line 1 matches and contributes its timestamp, line 2
contributes nothing. -/
theorem scenario_vaccines :
    extract_timestamps
        "00:01:15 Vaccines cause autism, according to some.\n00:02:30 This has been studied."
        "Vaccines: cause autism claim" =
      [("Vaccines", ["00:01:15"])] := by
  decide

/-- Claim C7: `extract_timestamps` is deterministic — two runs on equal
(transcript, claims) pairs produce identical output; the embedding is a
pure function of its two inputs with no other state. -/
theorem extract_timestamps_deterministic (t1 c1 t2 c2 : String)
    (ht : t1 = t2) (hc : c1 = c2) :
    extract_timestamps t1 c1 = extract_timestamps t2 c2 := by
  rw [ht, hc]

/-- Claim C7, witness: two runs on a concrete equal pair agree. -/
theorem extract_timestamps_deterministic_witness :
    extract_timestamps "00:00:05 b" "b: c" = extract_timestamps "00:00:05 b" "b: c" :=
  extract_timestamps_deterministic "00:00:05 b" "b: c" "00:00:05 b" "b: c" rfl rfl

/-- Claim C9: every string stored in any list of the returned index is
exactly eight characters of the shape two digits, colon, two digits,
colon, two digits. -/
theorem timestamp_strings_shape (t c k : String) (l : List String) (s : String)
    (h1 : dictGet? (extract_timestamps t c) k = some l) (h2 : s ∈ l) :
    isTimestampString s = true := by
  rw [extract_lookup] at h1
  by_cases hk : k ∈ (pySplit '\n' c).map takeBeforeColon
  · rw [if_pos hk] at h1
    obtain rfl : topicTimestamps k (pySplit '\n' t) = l := by injection h1
    rw [topicTimestamps] at h2
    obtain ⟨line, hline, hc2⟩ := List.mem_filterMap.1 h2
    rw [lineContrib] at hc2
    by_cases hw : wordMatch k line = true
    · rw [if_pos hw] at hc2
      exact findTimestamp_shape _ _ hc2
    · rw [if_neg hw] at hc2
      exact Option.noConfusion hc2
  · rw [if_neg hk] at h1
    exact Option.noConfusion h1

/-- Claim C9, witness: the shape property applied at a concrete run. -/
theorem timestamp_strings_shape_witness : isTimestampString "00:00:59" = true :=
  timestamp_strings_shape "ab 00:00:59" "ab: claim" "ab" ["00:00:59"] "00:00:59"
    (by decide) (by decide)

/-- Claim C10: the final list for a Topic is the one produced by a fresh
scan for that Topic alone, independently of how many claim lines derive
it — a later claim line with the same Topic reinitializes the entry, so
timestamps never accumulate across repeated claim lines. -/
theorem repeated_topic_no_accumulation (t c1 c2 k : String)
    (h1 : k ∈ (pySplit '\n' c1).map takeBeforeColon)
    (h2 : k ∈ (pySplit '\n' c2).map takeBeforeColon) :
    dictGet? (extract_timestamps t c1) k =
        some (topicTimestamps k (pySplit '\n' t)) ∧
    dictGet? (extract_timestamps t c1) k = dictGet? (extract_timestamps t c2) k := by
  rw [extract_lookup, extract_lookup, if_pos h1, if_pos h2]
  exact ⟨rfl, rfl⟩

/-- Claim C10, witness: a claims text repeating the topic "alpha" twice
yields the same entry as a claims text deriving it once. -/
theorem repeated_topic_no_accumulation_witness :
    dictGet? (extract_timestamps "00:00:01 alpha" "alpha: x\nalpha: y") "alpha" =
        some (topicTimestamps "alpha" (pySplit '\n' "00:00:01 alpha")) ∧
    dictGet? (extract_timestamps "00:00:01 alpha" "alpha: x\nalpha: y") "alpha" =
      dictGet? (extract_timestamps "00:00:01 alpha" "alpha: z") "alpha" :=
  repeated_topic_no_accumulation "00:00:01 alpha" "alpha: x\nalpha: y" "alpha: z" "alpha"
    (by decide) (by decide)

/-- Claim C3, counterexample: the claim line " x" contains no colon, yet
the derived Topic is " x" itself — not the trimmed "x": the index keys the
untrimmed line and has no entry for the trimmed one. -/
theorem topic_not_trimmed_cex :
    (∀ ch ∈ " x".toList, ch ≠ ':') ∧
    takeBeforeColon " x" ≠ pyStrip " x" ∧
    dictGet? (extract_timestamps "" " x") " x" = some [] ∧
    dictGet? (extract_timestamps "" " x") "x" = none := by
  decide

/-- Claim C3 (amended): for every claim line containing no colon, the
derived Topic equals the full claim line exactly as written, with no
whitespace trimming. -/
theorem topic_no_colon_full_line (claim : String)
    (h : ∀ ch ∈ claim.toList, ch ≠ ':') :
    takeBeforeColon claim = claim := by
  have hall : ∀ c ∈ claim.toList, (fun c => c == ':') c = false := by
    intro c hc
    simpa using h c hc
  rw [takeBeforeColon, pySplit, pySplitList_no_sep _ _ hall]
  exact asString_toList claim

/-- Claim C3 (amended), witness: a colon-free line is its own Topic. -/
theorem topic_no_colon_full_line_witness :
    takeBeforeColon "Global warming is accelerating" = "Global warming is accelerating" :=
  topic_no_colon_full_line "Global warming is accelerating" (by decide)

/-- Claim C5, counterexample: for the claims text "A: b\n", whose second
line is empty, the index contains the key "" contributed by the empty
line, even though the only non-empty line's Topic is "A". -/
theorem empty_claim_line_key_cex :
    dictGet? (extract_timestamps "x" "A: b\n") "" = some [] ∧
    ((pySplit '\n' "A: b\n").filter (fun l => !(l == ""))).map takeBeforeColon = ["A"] := by
  decide

/-- Claim C5 (amended): the index contains a key exactly for the Topics of
ALL lines of the ClaimSet, empty lines included; an empty claim line
contributes the key "" mapped to the empty timestamp list. -/
theorem index_keys_all_lines (t c k : String) :
    ((dictGet? (extract_timestamps t c) k).isSome = true ↔
      k ∈ (pySplit '\n' c).map takeBeforeColon) ∧
    ("" ∈ pySplit '\n' c → dictGet? (extract_timestamps t c) "" = some []) := by
  constructor
  · rw [extract_lookup]
    by_cases hk : k ∈ (pySplit '\n' c).map takeBeforeColon
    · rw [if_pos hk]
      simp [hk]
    · rw [if_neg hk]
      simp [hk]
  · intro h0
    have hk : "" ∈ (pySplit '\n' c).map takeBeforeColon :=
      List.mem_map_of_mem takeBeforeColon h0
    rw [extract_lookup, if_pos hk, topicTimestamps_empty]

/-- Claim C5 (amended), witness: a claims text that is one empty line
yields an index whose sole entry is the key "" with the empty list. -/
theorem index_keys_all_lines_witness :
    dictGet? (extract_timestamps "x" "\n") "" = some [] :=
  (index_keys_all_lines "x" "\n" "").2 (by decide)

/-- Claim C4, counterexample: for transcript "hello" and the single
non-blank claim line "Vaccines: x", the topic's timestamp list is empty,
yet the rendered section shows the empty list "[]" in the Timestamps
field — the "N/A" placeholder appears nowhere in the section. -/
theorem timestamps_field_empty_list_cex :
    dictGet? (extract_timestamps "hello" "Vaccines: x") "Vaccines" = some [] ∧
    claimSection (extract_timestamps "hello" "Vaccines: x") "V" (fun _ => []) "Vaccines: x" =
      "### Vaccines\n**Claim:** Vaccines: x\n\n**Timestamps:** []\n\n**Verification:** V\n\n**Relevant Sources:**\n\n---\n" ∧
    strContains
      (claimSection (extract_timestamps "hello" "Vaccines: x") "V" (fun _ => []) "Vaccines: x")
      "N/A" = false := by
  decide

/-- Claim C4 (amended): for every non-blank claim line, the Timestamps
field renders the Python representation of the topic's actual list from
the index, so an empty list renders as "[]"; the "N/A" default of
`dict.get` never fires for a claim line, because every claim line's topic
is a key of the index. -/
theorem claim_section_renders_actual_list
    (transcript claims verified : String) (sources : String → List String)
    (claim : String) (hmem : claim ∈ pySplit '\n' claims)
    (hnb : pyStrip claim ≠ "") :
    claimSection (extract_timestamps transcript claims) verified sources claim =
      "### " ++ takeBeforeColon claim ++ "\n" ++
        "**Claim:** " ++ claim ++ "\n\n" ++
        "**Timestamps:** " ++
          pyReprList (topicTimestamps (takeBeforeColon claim) (pySplit '\n' transcript)) ++
          "\n\n" ++
        "**Verification:** " ++ verified ++ "\n\n" ++
        "**Relevant Sources:**\n" ++
        strJoin ((sources (takeBeforeColon claim)).map
          (fun source => "- [" ++ source ++ "](" ++ source ++ ")\n")) ++
        "\n---\n" := by
  have hk : takeBeforeColon claim ∈ (pySplit '\n' claims).map takeBeforeColon :=
    List.mem_map_of_mem takeBeforeColon hmem
  have hget : dictGetD (extract_timestamps transcript claims) (takeBeforeColon claim) ["N/A"] =
      topicTimestamps (takeBeforeColon claim) (pySplit '\n' transcript) := by
    rw [dictGetD, extract_lookup, if_pos hk]
  unfold claimSection
  rw [if_pos hnb, hget]

/-- Claim C4 (amended), witness: the rendering equality at a concrete
non-blank claim line whose topic has an empty list. -/
theorem claim_section_renders_actual_list_witness :
    claimSection (extract_timestamps "t" "A: b") "v" (fun _ => ["u"]) "A: b" =
      "### " ++ takeBeforeColon "A: b" ++ "\n" ++
        "**Claim:** " ++ "A: b" ++ "\n\n" ++
        "**Timestamps:** " ++
          pyReprList (topicTimestamps (takeBeforeColon "A: b") (pySplit '\n' "t")) ++
          "\n\n" ++
        "**Verification:** " ++ "v" ++ "\n\n" ++
        "**Relevant Sources:**\n" ++
        strJoin (["u"].map (fun source => "- [" ++ source ++ "](" ++ source ++ ")\n")) ++
        "\n---\n" :=
  claim_section_renders_actual_list "t" "A: b" "v" (fun _ => ["u"]) "A: b"
    (by decide) (by decide)

/-- Claim C8: blank or whitespace-only claim lines contribute no section
to the final report: the report equals the header followed by the sections
of the non-blank lines only, a blank line's section is the empty string,
and a blank line's section is independent of the source fetcher. -/
theorem blank_lines_no_section (transcript claims verified : String)
    (sources : String → List String) :
    generate_final_report transcript claims verified sources =
      "# Video Claim Analysis Report\n\n" ++
        "## Strong Claims and Their Evaluation\n\n" ++
        strJoin (((pySplit '\n' claims).filter (fun c => !(pyStrip c == ""))).map
          (claimSection (extract_timestamps transcript claims) verified sources)) ∧
    (∀ ts v s claim, pyStrip claim = "" → claimSection ts v s claim = "") ∧
    (∀ ts v s1 s2 claim, pyStrip claim = "" →
      claimSection ts v s1 claim = claimSection ts v s2 claim) := by
  refine ⟨?_, fun ts v s claim h => claimSection_blank ts v s claim h,
    fun ts v s1 s2 claim h => by
      rw [claimSection_blank ts v s1 claim h, claimSection_blank ts v s2 claim h]⟩
  have hmain : strJoin ((pySplit '\n' claims).map
        (claimSection (extract_timestamps transcript claims) verified sources)) =
      strJoin (((pySplit '\n' claims).filter (fun c => !(pyStrip c == ""))).map
        (claimSection (extract_timestamps transcript claims) verified sources)) := by
    apply strJoin_map_filter
    intro x _ hx
    rw [Bool.not_eq_false'] at hx
    exact claimSection_blank _ _ _ x (eq_of_beq hx)
  unfold generate_final_report
  rw [hmain]

/-- Claim C8, witness: a whitespace-only claim line renders no section. -/
theorem blank_lines_no_section_witness :
    claimSection [] "v" (fun _ => []) "  " = "" :=
  (blank_lines_no_section "x" "y" "v" (fun _ => [])).2.1 [] "v" (fun _ => []) "  "
    (by decide)

example : pySplit '\n' "a\nb" = ["a", "b"] := by decide
example : pySplit '\n' "" = [""] := by decide
example : pySplit '\n' "a\n" = ["a", ""] := by decide
example : pySplitWs "  a  bc " = ["a", "bc"] := by decide
example : pySplitWs "" = [] := by decide
example : takeBeforeColon "Vaccines: cause autism" = "Vaccines" := by decide
example : takeBeforeColon " x" = " x" := by decide
example : strContains "said" "ai" = true := by decide
example : strContains "hello" "vaccines" = false := by decide
example : findTimestamp ("00:01:15 ok".toList) = some "00:01:15" := by decide
example : findTimestamp ("a0:01:15".toList) = none := by decide
example : pyReprList [] = "[]" := by decide
example : pyReprList ["00:01:15"] = "[\x2700:01:15\x27]" := by decide
example : specFirstTimestamp "x 10:20:30 y 11:22:33" = some "10:20:30" := by decide
example : isTimestampString "00:01:15" = true := by decide
example : isTimestampString "0:01:15" = false := by decide
